import Mathlib

/-!
A verification development for the request/response signing core of the
`pinguo/open-api-sdk-go` repository (package `sign`, file `signature_builder.go`).

The Go source is shallowly embedded: Go strings are Lean `String`s (with
UTF-8 byte sequences made explicit where hashing needs them), Go `map`s are
association lists whose assignment/lookup operations mirror Go map semantics,
the consumable `io.ReadCloser` bodies are modelled by a stream that remembers
whether it has been drained, and the ambient wall clock (`time.Now().Unix()`)
is passed in as an explicit `now : Int` parameter.  Functions that mutate an
`*http.Request` / `*http.Response` in place return the updated message next
to their result.  Machine integers (`int`, `int64`) are modelled by `Int`;
32-bit hash arithmetic is `Nat` arithmetic reduced modulo `2 ^ 32`.
-/

namespace OpenApiSdk

/-! ## Byte-level string utilities -/

/-- 32-bit truncation, the implicit wrap-around of Go `uint32` arithmetic. -/
def w32 (n : Nat) : Nat := n % 4294967296

/-- 32-bit right rotation. -/
def rotr (k x : Nat) : Nat := w32 ((x >>> k) ||| (x <<< (32 - k)))

/-- 32-bit bitwise complement. -/
def compl32 (x : Nat) : Nat := 4294967295 ^^^ x

/-- UTF-8 encoding of one character as its list of byte values; Go strings
are byte strings, and `[]byte(s)` yields exactly these bytes. -/
def utf8EncodeChar (c : Char) : List Nat :=
  let n := c.toNat
  if n < 128 then [n]
  else if n < 2048 then [192 ||| (n >>> 6), 128 ||| (n &&& 63)]
  else if n < 65536 then
    [224 ||| (n >>> 12), 128 ||| ((n >>> 6) &&& 63), 128 ||| (n &&& 63)]
  else
    [240 ||| (n >>> 18), 128 ||| ((n >>> 12) &&& 63), 128 ||| ((n >>> 6) &&& 63),
      128 ||| (n &&& 63)]

/-- The UTF-8 byte sequence of a string, as in Go `[]byte(s)`. -/
def strBytes (s : String) : List Nat := s.data.flatMap utf8EncodeChar

/-- Byte-wise lexicographic comparison of character lists.  On UTF-8 byte
sequences the code-point order used here coincides with Go's byte-wise
string order, since UTF-8 preserves code-point order. -/
def charListLe : List Char → List Char → Bool
  | [], _ => true
  | _ :: _, [] => false
  | a :: as, b :: bs =>
    if a.toNat < b.toNat then true
    else if b.toNat < a.toNat then false
    else charListLe as bs

/-- Go's `<=` on strings (byte-wise lexicographic), as a proposition. -/
def strLe (a b : String) : Prop := charListLe a.data b.data = true

instance : DecidableRel strLe := fun _ _ => inferInstanceAs (Decidable (_ = true))

/-- `sort.Strings`: ascending lexicographic sort.  The source uses the Go
standard library's (unstable) sort; since the order is total and antisymmetric
every correct sort produces the same list, so insertion sort is a faithful
model. -/
def sortStrings (l : List String) : List String := l.insertionSort strLe

/-- `strings.Contains` on the character level: is `sub` an infix of `s`? -/
def infixOfCh (sub : List Char) : List Char → Bool
  | [] => sub.isEmpty
  | c :: cs => sub.isPrefixOf (c :: cs) || infixOfCh sub cs

/-- `strings.Contains s sub`. -/
def strContains (s sub : String) : Bool := infixOfCh sub.data s.data

/-- Decimal digit character of `n < 10`. -/
def decDigitChar (n : Nat) : Char := Char.ofNat (48 + n)

/-- Decimal digits of a natural number, most significant first, prepended to
`acc`.  The `fuel` argument only drives structural recursion; `fuel = n + 1`
always suffices. -/
def natDecimalAux : Nat → Nat → List Char → List Char
  | 0, _, acc => acc
  | fuel + 1, n, acc =>
    if n < 10 then decDigitChar n :: acc
    else natDecimalAux fuel (n / 10) (decDigitChar (n % 10) :: acc)

/-- Decimal rendering of a natural number. -/
def natDecimal (n : Nat) : String := String.mk (natDecimalAux (n + 1) n [])

/-- `fmt.Sprintf("%d", i)` for a Go `int64`. -/
def intDecimal : Int → String
  | .ofNat n => natDecimal n
  | .negSucc n => "-" ++ natDecimal (n + 1)

/-- Wrap-around of Go signed 64-bit arithmetic: the value of an `int64`
expression reduced to the range from -2^63 up to 2^63 - 1.  Go's
`time.Now().Unix() - timestamp` subtracts two `int64`s with silent
overflow, which this models for arbitrary integer operands. -/
def wrapInt64 (n : Int) : Int :=
  (n + 9223372036854775808) % 18446744073709551616 - 9223372036854775808

/-- Value of a decimal digit character, if it is one. -/
def decDigitVal (c : Char) : Option Nat :=
  if 48 ≤ c.toNat ∧ c.toNat ≤ 57 then some (c.toNat - 48) else none

/-- Accumulate the value of a run of decimal digit characters; `none` as soon
as a non-digit appears. -/
def parseDecDigits : Nat → List Char → Option Nat
  | acc, [] => some acc
  | acc, c :: cs =>
    match decDigitVal c with
    | some d => parseDecDigits (acc * 10 + d) cs
    | none => none

/-- Core of `strconv.ParseInt(s, 10, 64)` after the sign has been split off:
a non-empty all-digit string whose value must fit in a signed 64-bit
integer.  Go reports `ErrSyntax` for malformed input and `ErrRange` for
overflow; the caller only propagates the error, so the messages are the
only thing retained. -/
def parseIntDigits (neg : Bool) (l : List Char) : Except String Int :=
  match l with
  | [] => .error "invalid syntax"
  | _ =>
    match parseDecDigits 0 l with
    | none => .error "invalid syntax"
    | some n =>
      let v : Int := if neg then -(n : Int) else (n : Int)
      if v < -9223372036854775808 ∨ 9223372036854775807 < v then
        .error "value out of range"
      else .ok v

/-- `strconv.ParseInt(s, 10, 64)`. -/
def ParseInt (s : String) : Except String Int :=
  match s.data with
  | [] => .error "invalid syntax"
  | '+' :: rest => parseIntDigits false rest
  | '-' :: rest => parseIntDigits true rest
  | l => parseIntDigits false l

/-! ## SHA-256 (`crypto/sha256` + `fmt.Sprintf("%x", ·)`) -/

/-- SHA-256 round constants. -/
def shaK : List Nat :=
  [1116352408, 1899447441, 3049323471, 3921009573, 961987163, 1508970993,
   2453635748, 2870763221, 3624381080, 310598401, 607225278, 1426881987,
   1925078388, 2162078206, 2614888103, 3248222580, 3835390401, 4022224774,
   264347078, 604807628, 770255983, 1249150122, 1555081692, 1996064986,
   2554220882, 2821834349, 2952996808, 3210313671, 3336571891, 3584528711,
   113926993, 338241895, 666307205, 773529912, 1294757372, 1396182291,
   1695183700, 1986661051, 2177026350, 2456956037, 2730485921, 2820302411,
   3259730800, 3345764771, 3516065817, 3600352804, 4094571909, 275423344,
   430227734, 506948616, 659060556, 883997877, 958139571, 1322822218,
   1537002063, 1747873779, 1955562222, 2024104815, 2227730452, 2361852424,
   2428436474, 2756734187, 3204031479, 3329325298]

/-- The eight 32-bit working variables of SHA-256. -/
structure Sha256State where
  a : Nat
  b : Nat
  c : Nat
  d : Nat
  e : Nat
  f : Nat
  g : Nat
  h : Nat

/-- SHA-256 initial hash value. -/
def shaInit : Sha256State :=
  ⟨1779033703, 3144134277, 1013904242, 2773480762, 1359893119, 2600822924, 528734635, 1541459225⟩

/-- SHA-256 message padding: a `0x80` byte, zero bytes up to 56 mod 64, then
the 64-bit big-endian bit length. -/
def shaPad (msg : List Nat) : List Nat :=
  let len := msg.length
  let zeros := (119 - len % 64) % 64
  let bits := 8 * len
  msg ++ [128] ++ List.replicate zeros 0 ++
    [(bits >>> 56) % 256, (bits >>> 48) % 256, (bits >>> 40) % 256, (bits >>> 32) % 256,
     (bits >>> 24) % 256, (bits >>> 16) % 256, (bits >>> 8) % 256, bits % 256]

/-- Split the first `n` 64-byte chunks off a byte list. -/
def shaBlocksN : Nat → List Nat → List (List Nat)
  | 0, _ => []
  | n + 1, l => l.take 64 :: shaBlocksN n (l.drop 64)

/-- Split a padded message (whose length is a multiple of 64) into its
64-byte blocks. -/
def shaBlocks (l : List Nat) : List (List Nat) := shaBlocksN (l.length / 64) l

/-- The sixteen initial 32-bit message words (big-endian) of one block. -/
def blockWords (b : List Nat) : List Nat :=
  (List.range 16).map fun i =>
    (b.getD (4 * i) 0) <<< 24 ||| (b.getD (4 * i + 1) 0) <<< 16 |||
      (b.getD (4 * i + 2) 0) <<< 8 ||| b.getD (4 * i + 3) 0

/-- Extend sixteen message words to the sixty-four-entry message schedule. -/
def msgSchedule (ws : List Nat) : List Nat :=
  (List.range 48).foldl
    (fun w _ =>
      let n := w.length
      let x15 := w.getD (n - 15) 0
      let x2 := w.getD (n - 2) 0
      let s0 := rotr 7 x15 ^^^ rotr 18 x15 ^^^ (x15 >>> 3)
      let s1 := rotr 17 x2 ^^^ rotr 19 x2 ^^^ (x2 >>> 10)
      w ++ [w32 (w.getD (n - 16) 0 + s0 + w.getD (n - 7) 0 + s1)])
    ws

/-- One round of the SHA-256 compression function. -/
def shaRound (st : Sha256State) (wi ki : Nat) : Sha256State :=
  let s1 := rotr 6 st.e ^^^ rotr 11 st.e ^^^ rotr 25 st.e
  let ch := (st.e &&& st.f) ^^^ (compl32 st.e &&& st.g)
  let t1 := w32 (st.h + s1 + ch + ki + wi)
  let s0 := rotr 2 st.a ^^^ rotr 13 st.a ^^^ rotr 22 st.a
  let maj := (st.a &&& st.b) ^^^ (st.a &&& st.c) ^^^ (st.b &&& st.c)
  let t2 := w32 (s0 + maj)
  ⟨w32 (t1 + t2), st.a, st.b, st.c, w32 (st.d + t1), st.e, st.f, st.g⟩

/-- Process one 64-byte block. -/
def shaCompress (st : Sha256State) (block : List Nat) : Sha256State :=
  let w := msgSchedule (blockWords block)
  let fin := (List.range 64).foldl (fun s i => shaRound s (w.getD i 0) (shaK.getD i 0)) st
  ⟨w32 (st.a + fin.a), w32 (st.b + fin.b), w32 (st.c + fin.c), w32 (st.d + fin.d),
    w32 (st.e + fin.e), w32 (st.f + fin.f), w32 (st.g + fin.g), w32 (st.h + fin.h)⟩

/-- Big-endian bytes of one 32-bit word. -/
def wordBytes (x : Nat) : List Nat :=
  [(x >>> 24) % 256, (x >>> 16) % 256, (x >>> 8) % 256, x % 256]

/-- `sha256.Sum256`: the 32-byte SHA-256 digest of a byte sequence.
This embedding was checked against the FIPS 180-4 test vectors
(digests of the empty message and of "abc"). -/
def sha256 (msg : List Nat) : List Nat :=
  let fin := (shaBlocks (shaPad msg)).foldl shaCompress shaInit
  wordBytes fin.a ++ wordBytes fin.b ++ wordBytes fin.c ++ wordBytes fin.d ++
    wordBytes fin.e ++ wordBytes fin.f ++ wordBytes fin.g ++ wordBytes fin.h

/-- Lowercase hexadecimal digit character. -/
def hexDigit (n : Nat) : Char :=
  if n < 10 then Char.ofNat (48 + n) else Char.ofNat (87 + n)

/-- `fmt.Sprintf("%x", bs)`: lowercase hexadecimal rendering of a byte
sequence, two digits per byte. -/
def bytesToHex (bs : List Nat) : String :=
  String.mk (bs.flatMap fun b => [hexDigit (b / 16 % 16), hexDigit (b % 16)])

/-! ## The HTTP collaborator model -/

/-- A readable message body (`io.ReadCloser`).  `io.ReadAll` drains the
stream: a second read of the same stream yields the empty string. -/
structure Body where
  content : String
  consumed : Bool
deriving DecidableEq, Repr

/-- `io.ReadAll` on the stream: its full remaining content. -/
def Body.readAll (b : Body) : String := if b.consumed then "" else b.content

/-- `io.NopCloser(bytes.NewBuffer(bs))`: a fresh, un-consumed stream. -/
def Body.fresh (s : String) : Body := ⟨s, false⟩

/-- Header map (`http.Header`).  The source always accesses headers through
fixed literal keys, so key canonicalization is irrelevant and the map is an
association list with exact-match keys. -/
abbrev Headers := List (String × String)

/-- Go map assignment `m[k] = v` (also `http.Header.Set`): replace the
binding in place, or append a new one. -/
def mapSet (m : List (String × String)) (k v : String) : List (String × String) :=
  match m with
  | [] => [(k, v)]
  | (k1, v1) :: rest => if k1 = k then (k, v) :: rest else (k1, v1) :: mapSet rest k v

/-- Go map read `m[k]` with the string zero value (also `http.Header.Get`,
which returns the empty string when the key is absent). -/
def mapGet (m : List (String × String)) (k : String) : String := (m.lookup k).getD ""

/-- An `*http.Request` as this package uses it: URL path, decoded query
pairs in occurrence order (`r.URL.Query()` preserves, per key, the order of
the raw query), headers, and the body stream. -/
structure Request where
  path : String
  query : List (String × String)
  header : Headers
  body : Body
deriving DecidableEq, Repr

/-- An `*http.Response` as `ValidateResponse` uses it: headers, body stream,
and the path of the originating request (`res.Request.URL.Path`). -/
structure Response where
  header : Headers
  body : Body
  requestPath : String
deriving DecidableEq, Repr

/-- Modelled from the spec: the timestamp header field name.  The constants
`HeadKeyTimestamp`, `HeadKeySign` and `HeadKeyAccessKey` are defined in a
part of the repository outside the given sources; the spec fixes only that
they are three distinct logical header fields, so three distinct literals
are used. -/
def HeadKeyTimestamp : String := "timestamp"

/-- Modelled from the spec: the signature header field name. -/
def HeadKeySign : String := "sign"

/-- Modelled from the spec: the access-key header field name. -/
def HeadKeyAccessKey : String := "accessKey"

/-! ## `net/url` and `mime` collaborators -/

/-- Split a character list at every `&` (the segment structure of
`strings.Cut(query, "&")` iterated). -/
def splitOnAmp : List Char → List (List Char)
  | [] => [[]]
  | c :: cs =>
    if c = '&' then [] :: splitOnAmp cs
    else
      match splitOnAmp cs with
      | [] => [[c]]
      | seg :: rest => (c :: seg) :: rest

/-- `strings.Cut(s, "=")` on characters: the parts before and after the
first `=`; when there is no `=` the second part is empty. -/
def cutEq : List Char → List Char × List Char
  | [] => ([], [])
  | c :: cs => if c = '=' then ([], cs) else ((cutEq cs).1.cons c, (cutEq cs).2)

/-- Value of a hexadecimal digit character, if it is one. -/
def unhex (c : Char) : Option Nat :=
  if 48 ≤ c.toNat ∧ c.toNat ≤ 57 then some (c.toNat - 48)
  else if 97 ≤ c.toNat ∧ c.toNat ≤ 102 then some (c.toNat - 87)
  else if 65 ≤ c.toNat ∧ c.toNat ≤ 70 then some (c.toNat - 55)
  else none

/-- `url.QueryUnescape` character by character: `+` becomes a space, `%XX`
becomes the byte `XX`, a malformed escape is an error.  (Go produces raw
bytes; escapes below 0x80 — the only ones this package's callers use — are
modelled exactly, a higher escape becomes the code point of its value.) -/
def queryUnescapeAux : List Char → Option (List Char)
  | [] => some []
  | '%' :: a :: b :: rest =>
    match unhex a, unhex b with
    | some x, some y => (queryUnescapeAux rest).map (Char.ofNat (16 * x + y) :: ·)
    | _, _ => none
  | '%' :: _ => none
  | '+' :: rest => (queryUnescapeAux rest).map (' ' :: ·)
  | c :: rest => (queryUnescapeAux rest).map (c :: ·)

/-- `url.QueryUnescape`. -/
def queryUnescape (l : List Char) : Except String String :=
  match queryUnescapeAux l with
  | some cs => .ok (String.mk cs)
  | none => .error "invalid URL escape"

/-- One folding step of `url.ParseQuery`: Go records an error for a segment
containing `;` or failing to unescape and continues with the next segment;
an empty segment is skipped; otherwise the decoded pair is appended.  The
caller discards the partial result whenever any error was recorded, so only
the presence of an error matters, not which of several is kept. -/
def parseQueryStep (acc : List (String × String) × Option String) (seg : List Char) :
    List (String × String) × Option String :=
  if seg.contains ';' then (acc.1, some "invalid semicolon separator in query")
  else if seg = [] then acc
  else
    match queryUnescape (cutEq seg).1, queryUnescape (cutEq seg).2 with
    | .ok k, .ok v => (acc.1 ++ [(k, v)], acc.2)
    | .error e, _ => (acc.1, acc.2 <|> some e)
    | _, .error e => (acc.1, acc.2 <|> some e)

/-- `url.ParseQuery`: the decoded key/value pairs in occurrence order, or an
error if any segment was malformed. -/
def ParseQuery (query : String) : Except String (List (String × String)) :=
  let r := (splitOnAmp query.data).foldl parseQueryStep ([], none)
  match r.2 with
  | some e => .error e
  | none => .ok r.1

/-- Collapse a multi-valued pair list to one value per key, keeping the
first value of each key: this is `values.Get(k)` (the first element of the
slice) applied for every key of a `url.Values`, as both `getGETParams` and
the form branch of `getPOSTParams` do. -/
def firstPerKey (l : List (String × String)) : List (String × String) :=
  l.foldl (fun acc kv => if (acc.lookup kv.1).isSome then acc else acc ++ [kv]) []

/-- `mime` tspecials, which may not appear in a token. -/
def isTSpecial (c : Char) : Bool := "()<>@,;:\\\"/[]?=".data.contains c

/-- `mime.isTokenChar`. -/
def isTokenChar (c : Char) : Bool := 32 < c.toNat && c.toNat < 127 && !isTSpecial c

/-- `mime.consumeToken`: the leading token and the rest. -/
def consumeToken (l : List Char) : List Char × List Char :=
  (l.takeWhile isTokenChar, l.dropWhile isTokenChar)

/-- `mime.checkMediaTypeDisposition`: the base must be a token, optionally
followed by `/` and a second token, with nothing after. -/
def checkMediaTypeDisposition (s : String) : Except String Unit :=
  let t := consumeToken s.data
  if t.1 = [] then .error "mime: no media type"
  else if t.2 = [] then .ok ()
  else if t.2.head? = some '/' then
    let t2 := consumeToken t.2.tail
    if t2.1 = [] then .error "mime: expected token after slash"
    else if t2.2 = [] then .ok ()
    else .error "mime: unexpected content after media subtype"
  else .error "mime: expected slash after first token"

/-- ASCII lower-casing of one character (`strings.ToLower`; media types are
ASCII, so the Unicode cases of the Go function cannot arise here). -/
def toLowerCh (c : Char) : Char :=
  if 65 ≤ c.toNat ∧ c.toNat ≤ 90 then Char.ofNat (c.toNat + 32) else c

/-- `unicode.IsSpace` for the code points `strings.TrimSpace` strips. -/
def isSpaceCh (c : Char) : Bool :=
  c.toNat = 32 || (9 ≤ c.toNat && c.toNat ≤ 13) || c.toNat = 133 || c.toNat = 160

/-- `strings.TrimSpace` on a character list. -/
def trimCh (l : List Char) : List Char :=
  ((l.dropWhile isSpaceCh).reverse.dropWhile isSpaceCh).reverse

/-- `mime.ParseMediaType`, restricted to what the source consumes: the
lowercased, trimmed media type before any `;`, validated as `token` or
`token/token`.  (Parameter parsing after `;`, whose errors the Go function
can also report, is not modelled; no claim depends on it.) -/
def ParseMediaType (v : String) : Except String String :=
  let base := String.mk (trimCh ((v.data.takeWhile (fun c => !(c == ';'))).map toLowerCh))
  match checkMediaTypeDisposition base with
  | .error e => .error e
  | .ok _ => .ok base

/-! ## The `sign` package -/

/-- The result of a signing operation (`SignatureResult`). -/
structure SignatureResult where
  FinalText : String
  Timestamp : String
  Sign : String
  AccessKey : String
deriving DecidableEq, Repr

/-- The credential (`SignatureBuilder`): access key, secret key, and the
expiry window in seconds. -/
structure SignatureBuilder where
  accessKey : String
  secretKey : String
  expiredIn : Int
deriving DecidableEq, Repr

/-- `NewSignatureBuilder`. -/
def NewSignatureBuilder (ak sk : String) (expiredIn : Int) : SignatureBuilder :=
  ⟨ak, sk, expiredIn⟩

/-- The distinct failure exits of the package, one constructor per
`fmt.Errorf`/propagated-error site in the source (messages retained). -/
inductive SignError where
  | contentTypeParse (msg : String)
  | formParse (msg : String)
  | unsupportedContentType (ct : String)
  | timestampParse (msg : String)
  | timestampExpired
  | missingTimestampInResponse
  | missingSignatureInResponse
  | accessKeyValidationFailed
  | signatureValidationFailed
deriving DecidableEq, Repr

/-- `hash`: hex-encoded SHA-256 of the text (the receiver is unused, as in
the source). -/
def SignatureBuilder.hash (_s : SignatureBuilder) (text : String) : String :=
  bytesToHex (sha256 (strBytes text))

/-- `buildParamsSignatureText`: sort the map's keys ascending, concatenate
`key=value` for each, then append the body. -/
def SignatureBuilder.buildParamsSignatureText (_s : SignatureBuilder)
    (params : List (String × String)) (body : String) : String :=
  let keys := sortStrings (params.map Prod.fst)
  (keys.foldl (fun paramStr k => paramStr ++ k ++ "=" ++ mapGet params k) "") ++ body

/-- `getGETParams`: one value per query key (`values[0]`). -/
def SignatureBuilder.getGETParams (_s : SignatureBuilder) (r : Request) :
    List (String × String) :=
  firstPerKey r.query

/-- The default content type of `getPOSTParams`. -/
def defaultContentType : String := "application/x-www-form-urlencoded"

/-- `getPOSTParams`: dispatch on the parsed content type (default
form-urlencoded when the header is absent), read and restore the body, and
return the body text (JSON) or the parsed form parameters.  The updated
request is returned next to the result, standing for the in-place mutation
of `r.Body`. -/
def SignatureBuilder.getPOSTParams (_s : SignatureBuilder) (r : Request) :
    Except SignError (String × List (String × String)) × Request :=
  let ct0 := mapGet r.header "Content-Type"
  let ct1 := if ct0 = "" then defaultContentType else ct0
  match ParseMediaType ct1 with
  | .error e => (.error (.contentTypeParse e), r)
  | .ok ct =>
    let body := r.body.readAll
    let r1 : Request := { r with body := Body.fresh body }
    if strContains ct "application/json" then (.ok (body, []), r1)
    else if strContains ct defaultContentType then
      match ParseQuery body with
      | .error e => (.error (.formParse e), r1)
      | .ok values => (.ok ("", firstPerKey values), r1)
    else (.error (.unsupportedContentType ct), r1)

/-- The merge of query parameters with form parameters: each form pair is
assigned into the query map (`queryParams[k] = v`), so form values replace
query values on key collision.  (The source guards the loop with
`len(postParams) > 0`; folding over the empty list is the identity, so the
guard is semantically transparent.) -/
def mergeParams (queryParams postParams : List (String × String)) :
    List (String × String) :=
  postParams.foldl (fun acc kv => mapSet acc kv.1 kv.2) queryParams

/-- `buildSignatureFromIncomeRequest`: extract and merge parameters, pick
the timestamp (existing header value, else the current Unix time), build
the final text `path + canonical + timestamp + secret`, hash it.  The
`AccessKey` field of the literal in the source is not assigned and is the
Go zero value, the empty string. -/
def SignatureBuilder.buildSignatureFromIncomeRequest (s : SignatureBuilder)
    (r : Request) (now : Int) : Except SignError SignatureResult × Request :=
  let queryParams := s.getGETParams r
  match s.getPOSTParams r with
  | (.error e, r1) => (.error e, r1)
  | (.ok (body, postParams), r1) =>
    let params := mergeParams queryParams postParams
    let ts0 := mapGet r1.header HeadKeyTimestamp
    let ts := if ts0 = "" then intDecimal now else ts0
    let finalText := r1.path ++ s.buildParamsSignatureText params body ++ ts ++ s.secretKey
    (.ok { Sign := s.hash finalText, FinalText := finalText, Timestamp := ts,
           AccessKey := "" }, r1)

/-- `SignRequest`: build the signature, then set the three headers
(timestamp, access key, signature) on the request. -/
def SignatureBuilder.SignRequest (s : SignatureBuilder) (r : Request) (now : Int) :
    Except SignError SignatureResult × Request :=
  match s.buildSignatureFromIncomeRequest r now with
  | (.error e, r1) => (.error e, r1)
  | (.ok rs, r1) =>
    let h1 := mapSet r1.header HeadKeyTimestamp rs.Timestamp
    let h2 := mapSet h1 HeadKeyAccessKey s.accessKey
    let h3 := mapSet h2 HeadKeySign rs.Sign
    (.ok rs, { r1 with header := h3 })

/-- `ValidateRequest`: parse the timestamp header, enforce the expiry
window (the age `time.Now().Unix() - timestamp` is computed in wrapping
`int64` arithmetic, as in the source), rebuild the signature from the
request and compare it with the signature header. -/
def SignatureBuilder.ValidateRequest (s : SignatureBuilder) (r : Request) (now : Int) :
    Except SignError Unit × Request :=
  let ts := mapGet r.header HeadKeyTimestamp
  match ParseInt ts with
  | .error e => (.error (.timestampParse e), r)
  | .ok timestamp =>
    if s.expiredIn > 0 ∧ wrapInt64 (now - timestamp) > s.expiredIn then
      (.error .timestampExpired, r)
    else
      match s.buildSignatureFromIncomeRequest r now with
      | (.error e, r1) => (.error e, r1)
      | (.ok rs, r1) =>
        if rs.Sign ≠ mapGet r1.header HeadKeySign then
          (.error .signatureValidationFailed, r1)
        else (.ok (), r1)

/-- `SignResponseBody`: sign a response body for a request path, with an
empty parameter map and a freshly generated timestamp; no message is
mutated. -/
def SignatureBuilder.SignResponseBody (s : SignatureBuilder) (reqPath : String)
    (body : String) (now : Int) : SignatureResult :=
  let ts := intDecimal now
  let finalText := reqPath ++ s.buildParamsSignatureText [] body ++ ts ++ s.secretKey
  { Sign := s.hash finalText, AccessKey := s.accessKey, FinalText := finalText,
    Timestamp := ts }

/-- `ValidateResponse`: read and restore the body, require the timestamp
and signature headers to be non-empty, compare the access-key header with
the credential (the source performs this comparison twice), then recompute
and compare the signature. -/
def SignatureBuilder.ValidateResponse (s : SignatureBuilder) (res : Response) :
    Except SignError Unit × Response :=
  let body := res.body.readAll
  let res1 : Response := { res with body := Body.fresh body }
  let ts := mapGet res1.header HeadKeyTimestamp
  if ts = "" then (.error .missingTimestampInResponse, res1)
  else
    let sign := mapGet res1.header HeadKeySign
    if sign = "" then (.error .missingSignatureInResponse, res1)
    else
      let ak := mapGet res1.header HeadKeyAccessKey
      if ak ≠ s.accessKey then (.error .accessKeyValidationFailed, res1)
      else if ak ≠ s.accessKey then (.error .accessKeyValidationFailed, res1)
      else
        let signText := s.buildParamsSignatureText [] body
        let finalText := res1.requestPath ++ signText ++ ts ++ s.secretKey
        let resSign := s.hash finalText
        if resSign = sign then (.ok (), res1)
        else (.error .signatureValidationFailed, res1)

/-- Unwrap a signing result, with the zero-valued record as fallback (the
fallback is never reached in the uses below, which all sign successfully). -/
def resultOrDefault (x : Except SignError SignatureResult) : SignatureResult :=
  match x with
  | .ok rs => rs
  | .error _ => ⟨"", "", "", ""⟩

/-! ## Concrete fixtures used by witnesses and counterexamples -/

/-- The credential of the repository's own round-trip test. -/
def w1sb : SignatureBuilder := NewSignatureBuilder "ak" "sk" 3600

/-- The request of the repository's own round-trip test: query `data=a`,
form body `a=b&d=c`, no declared content type. -/
def w1req : Request :=
  { path := "/v1/photos/generate", query := [("data", "a")], header := [],
    body := Body.fresh "a=b&d=c" }

/-- The signing result of the round-trip fixture. -/
def w1rs : SignatureResult := resultOrDefault (w1sb.SignRequest w1req 1000).1

/-- The signed request of the round-trip fixture. -/
def w1req2 : Request := (w1sb.SignRequest w1req 1000).2

def cex3sb : SignatureBuilder := NewSignatureBuilder "ak" "sk" 3600

/-- A request with no timestamp header at all. -/
def cex3reqNone : Request :=
  { path := "/p", query := [], header := [], body := Body.fresh "" }

/-- A request with a non-numeric timestamp header. -/
def cex3reqBad : Request :=
  { path := "/p", query := [], header := [(HeadKeyTimestamp, "abc")],
    body := Body.fresh "" }

/-- A request timestamped with the most negative 64-bit integer, which
`strconv.ParseInt` accepts; subtracting it from any non-negative clock
overflows `int64`. -/
def cex3reqMin : Request :=
  { path := "/p", query := [],
    header := [(HeadKeyTimestamp, "-9223372036854775808")],
    body := Body.fresh "" }

def w3sb : SignatureBuilder := NewSignatureBuilder "ak" "sk" 3600

/-- A request timestamped 1000, for exercising the expiry boundary. -/
def w3req : Request :=
  { path := "/p", query := [], header := [(HeadKeyTimestamp, "1000")],
    body := Body.fresh "" }

def cex4sb : SignatureBuilder := NewSignatureBuilder "ak" "sk" 3600

def cex4req : Request :=
  { path := "/p", query := [], header := [], body := Body.fresh "a=b" }

def w4sb : SignatureBuilder := NewSignatureBuilder "ak" "sk" 3600

def w4req : Request :=
  { path := "/q", query := [("x", "y")], header := [], body := Body.fresh "c=d" }

def w4rs : SignatureResult := resultOrDefault (w4sb.SignRequest w4req 1000).1

def w4req2 : Request := (w4sb.SignRequest w4req 1000).2

/-- A credential whose access-key identifier is the empty string. -/
def cex5sb : SignatureBuilder := NewSignatureBuilder "" "sk" 3600

/-- A response carrying a correct signature and timestamp but NO access-key
header at all. -/
def cex5res : Response :=
  { header := [(HeadKeyTimestamp, "100"),
      (HeadKeySign,
        cex5sb.hash ("/p" ++ cex5sb.buildParamsSignatureText [] "BODY" ++ "100" ++ "sk"))],
    body := Body.fresh "BODY", requestPath := "/p" }

def w5sb : SignatureBuilder := NewSignatureBuilder "ak" "sk" 3600

/-- A response with a timestamp header but no signature header. -/
def w5res : Response :=
  { header := [(HeadKeyTimestamp, "100"), (HeadKeyAccessKey, "other")],
    body := Body.fresh "B", requestPath := "/p" }

def w6sb : SignatureBuilder := NewSignatureBuilder "ak" "sk" 3600

/-- A JSON request: body are raw bytes to sign, no form decomposition. -/
def w6req : Request :=
  { path := "/j", query := [], header := [("Content-Type", "application/json")],
    body := Body.fresh "\x7b\x22a\x22:1\x7d" }

def w8sb : SignatureBuilder := NewSignatureBuilder "ak8" "sk8" 60

/-- A request carrying a pre-set timestamp header and an unrelated header. -/
def w8req : Request :=
  { path := "/r", query := [], header := [("X-Other", "keep"), (HeadKeyTimestamp, "77")],
    body := Body.fresh "a=1" }

def w8rs : SignatureResult := resultOrDefault (w8sb.SignRequest w8req 2000).1

def w8req2 : Request := (w8sb.SignRequest w8req 2000).2

def w10sb : SignatureBuilder := NewSignatureBuilder "ak" "sk" 3600

/-- A response whose timestamp header is NOT numeric and very much not
fresh, but whose signature and access key match. -/
def w10res : Response :=
  { header := [(HeadKeyTimestamp, "not-a-number"), (HeadKeyAccessKey, "ak"),
      (HeadKeySign,
        w10sb.hash ("/w" ++ w10sb.buildParamsSignatureText [] "RB" ++ "not-a-number" ++ "sk"))],
    body := Body.fresh "RB", requestPath := "/w" }

/-- Ordering of parameter pairs by their keys. -/
def pairKeyLe (a b : String × String) : Prop := strLe a.1 b.1

instance : DecidableRel pairKeyLe := fun _ _ => inferInstanceAs (Decidable (_ = true))

/-- The canonical text as the SPEC words it, for comparison with the
source's `buildParamsSignatureText`: the `key=value` pairs in ascending
lexicographic order of their keys, concatenated with no delimiter,
immediately followed by the body. -/
def canonicalizeSpec (params : List (String × String)) (body : String) : String :=
  String.join ((params.insertionSort pairKeyLe).map fun kv => kv.1 ++ "=" ++ kv.2) ++ body

/-! ## Shared lemmas: the string order -/

theorem charListLe_total : ∀ a b, charListLe a b = true ∨ charListLe b a = true := by
  intro a
  induction a with
  | nil => intro b; left; rfl
  | cons x xs ih =>
    intro b
    cases b with
    | nil => right; rfl
    | cons y ys =>
      by_cases hxy : x.toNat < y.toNat
      · left; simp [charListLe, hxy]
      · by_cases hyx : y.toNat < x.toNat
        · right; simp [charListLe, hyx]
        · have hx : ¬ y.toNat < x.toNat := hyx
          rcases ih ys with h | h
          · left; simp [charListLe, hxy, hyx, h]
          · right; simp [charListLe, hxy, hyx, h]

theorem charListLe_trans :
    ∀ a b c, charListLe a b = true → charListLe b c = true → charListLe a c = true := by
  intro a
  induction a with
  | nil => intro b c _ _; rfl
  | cons x xs ih =>
    intro b c hab hbc
    cases b with
    | nil => simp [charListLe] at hab
    | cons y ys =>
      cases c with
      | nil => simp [charListLe] at hbc
      | cons z zs =>
        simp only [charListLe] at hab hbc ⊢
        split at hab
        · rename_i hxy
          split at hbc
          · rename_i hyz
            have : x.toNat < z.toNat := Nat.lt_trans hxy hyz
            simp [this]
          · split at hbc
            · simp at hbc
            · rename_i hyz hzy
              have hyz2 : y.toNat = z.toNat := Nat.le_antisymm (Nat.le_of_not_lt hzy) (Nat.le_of_not_lt hyz)
              have : x.toNat < z.toNat := hyz2 ▸ hxy
              simp [this]
        · split at hab
          · simp at hab
          · rename_i hxy hyx
            have hxy2 : x.toNat = y.toNat := Nat.le_antisymm (Nat.le_of_not_lt hyx) (Nat.le_of_not_lt hxy)
            split at hbc
            · rename_i hyz
              have : x.toNat < z.toNat := hxy2 ▸ hyz
              simp [this]
            · split at hbc
              · simp at hbc
              · rename_i hyz hzy
                have hyz2 : y.toNat = z.toNat := Nat.le_antisymm (Nat.le_of_not_lt hzy) (Nat.le_of_not_lt hyz)
                have hxz : x.toNat = z.toNat := hxy2.trans hyz2
                simp only [hxz, Nat.lt_irrefl, if_false]
                exact ih ys zs hab hbc

theorem char_eq_of_toNat_eq {a b : Char} (h : a.toNat = b.toNat) : a = b :=
  Char.ext (UInt32.ext h)

theorem charListLe_antisymm :
    ∀ a b, charListLe a b = true → charListLe b a = true → a = b := by
  intro a
  induction a with
  | nil =>
    intro b _ hba
    cases b with
    | nil => rfl
    | cons y ys => simp [charListLe] at hba
  | cons x xs ih =>
    intro b hab hba
    cases b with
    | nil => simp [charListLe] at hab
    | cons y ys =>
      simp only [charListLe] at hab hba
      by_cases hxy : x.toNat < y.toNat
      · have : ¬ y.toNat < x.toNat := Nat.lt_asymm hxy
        simp [hxy, this] at hba
      · by_cases hyx : y.toNat < x.toNat
        · simp [hxy, hyx] at hab
        · simp only [hxy, hyx, if_false] at hab hba
          have hx : x = y :=
            char_eq_of_toNat_eq (Nat.le_antisymm (Nat.le_of_not_lt hyx) (Nat.le_of_not_lt hxy))
          rw [hx, ih ys hab hba]

instance : IsTotal String strLe := ⟨fun a b => charListLe_total a.data b.data⟩

instance : IsTrans String strLe :=
  ⟨fun a b c hab hbc => charListLe_trans a.data b.data c.data hab hbc⟩

instance : IsAntisymm String strLe := by
  constructor
  intro a b hab hba
  cases a with
  | mk da =>
    cases b with
    | mk db => exact congrArg String.mk (charListLe_antisymm da db hab hba)

instance : IsTotal (String × String) pairKeyLe :=
  ⟨fun a b => charListLe_total a.1.data b.1.data⟩

instance : IsTrans (String × String) pairKeyLe :=
  ⟨fun a b c hab hbc => charListLe_trans a.1.data b.1.data c.1.data hab hbc⟩

theorem sortStrings_perm (l : List String) : (sortStrings l).Perm l :=
  List.perm_insertionSort strLe l

theorem sortStrings_sorted (l : List String) : List.Sorted strLe (sortStrings l) :=
  List.sorted_insertionSort strLe l

theorem sortStrings_congr {l l2 : List String} (h : l.Perm l2) :
    sortStrings l = sortStrings l2 :=
  List.eq_of_perm_of_sorted
    (((sortStrings_perm l).trans h).trans (sortStrings_perm l2).symm)
    (sortStrings_sorted l) (sortStrings_sorted l2)

/-! ## Shared lemmas: maps, lookups, folds -/

theorem lookup_cons_self {k v : String} {l : List (String × String)} :
    ((k, v) :: l).lookup k = some v := by
  simp [List.lookup]

theorem lookup_cons_ne {k k1 v : String} {l : List (String × String)} (h : k ≠ k1) :
    ((k1, v) :: l).lookup k = l.lookup k := by
  have hb : (k == k1) = false := beq_eq_false_iff_ne.mpr h
  simp [List.lookup, hb]

theorem mapSet_cons_eq {k1 k : String} (v1 v : String) (rest : List (String × String))
    (h : k1 = k) : mapSet ((k1, v1) :: rest) k v = (k, v) :: rest := by
  simp [mapSet, h]

theorem mapSet_cons_ne {k1 k : String} (v1 v : String) (rest : List (String × String))
    (h : k1 ≠ k) : mapSet ((k1, v1) :: rest) k v = (k1, v1) :: mapSet rest k v := by
  simp [mapSet, h]

theorem lookup_mapSet_self (m : List (String × String)) (k v : String) :
    (mapSet m k v).lookup k = some v := by
  induction m with
  | nil => simp [mapSet, List.lookup]
  | cons kv rest ih =>
    obtain ⟨k1, v1⟩ := kv
    by_cases h : k1 = k
    · rw [mapSet_cons_eq v1 v rest h, lookup_cons_self]
    · rw [mapSet_cons_ne v1 v rest h, lookup_cons_ne (fun he => h he.symm), ih]

theorem lookup_mapSet_ne (m : List (String × String)) (k v k2 : String) (h : k2 ≠ k) :
    (mapSet m k v).lookup k2 = m.lookup k2 := by
  induction m with
  | nil =>
    have hb : (k2 == k) = false := beq_eq_false_iff_ne.mpr h
    simp [mapSet, List.lookup, hb]
  | cons kv rest ih =>
    obtain ⟨k1, v1⟩ := kv
    by_cases h1 : k1 = k
    · rw [mapSet_cons_eq v1 v rest h1, lookup_cons_ne h, h1, lookup_cons_ne h]
    · rw [mapSet_cons_ne v1 v rest h1]
      by_cases h2 : k2 = k1
      · subst h2; rw [lookup_cons_self, lookup_cons_self]
      · rw [lookup_cons_ne h2, lookup_cons_ne h2, ih]

theorem mapGet_mapSet_self (m : List (String × String)) (k v : String) :
    mapGet (mapSet m k v) k = v := by
  simp [mapGet, lookup_mapSet_self]

theorem mapGet_mapSet_ne (m : List (String × String)) (k v k2 : String) (h : k2 ≠ k) :
    mapGet (mapSet m k v) k2 = mapGet m k2 := by
  simp [mapGet, lookup_mapSet_ne m k v k2 h]

theorem lookup_of_mem_nodup {l : List (String × String)} {k v : String}
    (hnd : (l.map Prod.fst).Nodup) (hm : (k, v) ∈ l) : l.lookup k = some v := by
  induction l with
  | nil => cases hm
  | cons kv rest ih =>
    obtain ⟨k1, v1⟩ := kv
    simp only [List.map_cons, List.nodup_cons] at hnd
    rcases List.mem_cons.mp hm with he | hm2
    · cases he; exact lookup_cons_self
    · have hk : k ≠ k1 := by
        intro he
        subst he
        exact hnd.1 (List.mem_map.mpr ⟨(k, v), hm2, rfl⟩)
      rw [lookup_cons_ne hk]
      exact ih hnd.2 hm2

theorem lookup_perm {l l2 : List (String × String)} (h : l.Perm l2)
    (hnd : (l.map Prod.fst).Nodup) (k : String) : l.lookup k = l2.lookup k := by
  induction h with
  | nil => rfl
  | cons x h2 ih =>
    obtain ⟨k1, v1⟩ := x
    by_cases he : k = k1
    · subst he; rw [lookup_cons_self, lookup_cons_self]
    · simp only [List.map_cons, List.nodup_cons] at hnd
      rw [lookup_cons_ne he, lookup_cons_ne he, ih hnd.2]
  | swap x y l =>
    obtain ⟨k1, v1⟩ := x
    obtain ⟨k2, v2⟩ := y
    simp only [List.map_cons, List.nodup_cons, List.mem_cons] at hnd
    have hne : k2 ≠ k1 := fun he => hnd.1 (Or.inl he)
    by_cases he1 : k = k2
    · subst he1
      rw [lookup_cons_self, lookup_cons_ne hne, lookup_cons_self]
    · rw [lookup_cons_ne he1]
      by_cases he2 : k = k1
      · subst he2; rw [lookup_cons_self, lookup_cons_self]
      · rw [lookup_cons_ne he2, lookup_cons_ne he2, lookup_cons_ne he1]
  | trans h1 h2 ih1 ih2 =>
    have hnd2 := (h1.map Prod.fst).nodup hnd
    rw [ih1 hnd, ih2 hnd2]

theorem foldl_append_shift (l : List String) (acc : String) :
    l.foldl (fun r s => r ++ s) acc = acc ++ l.foldl (fun r s => r ++ s) "" := by
  induction l generalizing acc with
  | nil => simp [List.foldl]
  | cons x xs ih =>
    simp only [List.foldl]
    rw [ih (acc ++ x), ih ("" ++ x)]
    have hx : "" ++ x = x := rfl
    rw [hx, String.append_assoc]

theorem join_cons (a : String) (l : List String) :
    String.join (a :: l) = a ++ String.join l := by
  show (a :: l).foldl (fun r s => r ++ s) "" = a ++ l.foldl (fun r s => r ++ s) ""
  simp only [List.foldl]
  rw [foldl_append_shift l ("" ++ a)]
  rfl

theorem foldl_append_join (keys : List String) (f : String → String) (init : String) :
    keys.foldl (fun acc k => acc ++ f k) init = init ++ String.join (keys.map f) := by
  induction keys generalizing init with
  | nil =>
    show init = init ++ ""
    cases init with
    | mk d => show String.mk d = String.mk (d ++ []); simp
  | cons x xs ih =>
    simp only [List.foldl, List.map_cons]
    rw [ih (init ++ f x), join_cons, String.append_assoc]

theorem natDecimalAux_ne_nil (fuel n : Nat) (acc : List Char) (h : acc ≠ []) :
    natDecimalAux fuel n acc ≠ [] := by
  induction fuel generalizing n acc with
  | zero => exact h
  | succ fuel ih =>
    simp only [natDecimalAux]
    split
    · simp
    · exact ih (n / 10) _ (by simp)

theorem natDecimal_ne_empty (n : Nat) : natDecimal n ≠ "" := by
  intro h
  have h2 : natDecimalAux (n + 1) n [] = [] := congrArg String.data h
  simp only [natDecimalAux] at h2
  by_cases hn : n < 10
  · rw [if_pos hn] at h2; cases h2
  · rw [if_neg hn] at h2
    exact natDecimalAux_ne_nil n (n / 10) _ (by simp) h2

theorem length_zero_eq_empty {s : String} (h : s.length = 0) : s = "" := by
  cases s with
  | mk d =>
    have hd : d = [] := by simpa [String.length] using h
    exact congrArg String.mk hd

theorem intDecimal_ne_empty (i : Int) : intDecimal i ≠ "" := by
  cases i with
  | ofNat n => exact natDecimal_ne_empty n
  | negSucc n =>
    intro h
    have h2 : ("-" ++ natDecimal (n + 1)).length = 0 := by
      rw [show ("-" ++ natDecimal (n + 1)) = intDecimal (Int.negSucc n) from rfl, h]
      rfl
    rw [String.length_append] at h2
    have h3 : ("-" : String).length = 1 := rfl
    omega

theorem append_ne_empty_of_right {a b : String} (h : b ≠ "") : a ++ b ≠ "" := by
  intro he
  apply h
  apply length_zero_eq_empty
  have := congrArg String.length he
  rw [String.length_append] at this
  have hz : a.length + b.length = 0 := this
  omega

/-! ## Shared lemmas: the hash -/

theorem length_flatMapHex (bs : List Nat) :
    (bs.flatMap fun b => [hexDigit (b / 16 % 16), hexDigit (b % 16)]).length =
      2 * bs.length := by
  induction bs with
  | nil => rfl
  | cons x xs ih => simp [List.flatMap_cons, ih]; omega

theorem bytesToHex_length (bs : List Nat) : (bytesToHex bs).length = 2 * bs.length := by
  show (String.mk _).length = _
  rw [String.length_mk]
  exact length_flatMapHex bs

theorem sha256_length (msg : List Nat) : (sha256 msg).length = 32 := by
  simp [sha256, wordBytes]

theorem hash_length (s : SignatureBuilder) (text : String) :
    (s.hash text).length = 64 := by
  show (bytesToHex (sha256 (strBytes text))).length = 64
  rw [bytesToHex_length, sha256_length]

theorem hash_ne_empty (s : SignatureBuilder) (text : String) : s.hash text ≠ "" := by
  intro h
  have := congrArg String.length h
  rw [hash_length] at this
  simp [String.length] at this

/-! ## Shared lemmas: the extraction and signing operations -/

theorem readAll_fresh (s : String) : (Body.fresh s).readAll = s := rfl

theorem getPOSTParams_snd (s : SignatureBuilder) (r : Request) :
    (s.getPOSTParams r).2 = r ∨
      (s.getPOSTParams r).2 = { r with body := Body.fresh (r.body.readAll) } := by
  simp only [SignatureBuilder.getPOSTParams]
  cases ParseMediaType (if mapGet r.header "Content-Type" = "" then defaultContentType
      else mapGet r.header "Content-Type") with
  | error e => left; rfl
  | ok ct =>
    by_cases hj : strContains ct "application/json" = true
    · right; simp [hj]
    · by_cases hf : strContains ct defaultContentType = true
      · cases ParseQuery (r.body.readAll) with
        | error e => right; simp [hj, hf]
        | ok values => right; simp [hj, hf]
      · right
        simp only [Bool.not_eq_true] at hj hf
        simp [hj, hf]

theorem getPOSTParams_header (s : SignatureBuilder) (r : Request) :
    (s.getPOSTParams r).2.header = r.header := by
  rcases getPOSTParams_snd s r with h | h <;> rw [h]

theorem getPOSTParams_query (s : SignatureBuilder) (r : Request) :
    (s.getPOSTParams r).2.query = r.query := by
  rcases getPOSTParams_snd s r with h | h <;> rw [h]

theorem getPOSTParams_path (s : SignatureBuilder) (r : Request) :
    (s.getPOSTParams r).2.path = r.path := by
  rcases getPOSTParams_snd s r with h | h <;> rw [h]

theorem getPOSTParams_readAll (s : SignatureBuilder) (r : Request) :
    (s.getPOSTParams r).2.body.readAll = r.body.readAll := by
  rcases getPOSTParams_snd s r with h | h
  · rw [h]
  · rw [h]; rfl

theorem getPOSTParams_ok_snd {s : SignatureBuilder} {r : Request} {b : String}
    {pp : List (String × String)} {r1 : Request}
    (h : s.getPOSTParams r = (.ok (b, pp), r1)) :
    r1 = { r with body := Body.fresh (r.body.readAll) } := by
  simp only [SignatureBuilder.getPOSTParams] at h
  cases hpm : ParseMediaType (if mapGet r.header "Content-Type" = "" then defaultContentType
      else mapGet r.header "Content-Type") with
  | error e => rw [hpm] at h; simp at h
  | ok ct =>
    rw [hpm] at h
    by_cases hj : strContains ct "application/json" = true
    · simp only [hj, if_true, Prod.mk.injEq] at h
      exact h.2.symm
    · simp only [Bool.not_eq_true] at hj
      simp only [hj, Bool.false_eq_true, if_false] at h
      by_cases hf : strContains ct defaultContentType = true
      · simp only [hf, if_true] at h
        cases hpq : ParseQuery (r.body.readAll) with
        | error e => rw [hpq] at h; simp at h
        | ok values =>
          rw [hpq] at h
          simp only [Prod.mk.injEq] at h
          exact h.2.symm
      · simp only [Bool.not_eq_true] at hf
        simp only [hf, Bool.false_eq_true, if_false, Prod.mk.injEq] at h
        cases h.1

theorem getPOSTParams_fst_stable (s : SignatureBuilder) (r r2 : Request)
    (hct : mapGet r2.header "Content-Type" = mapGet r.header "Content-Type")
    (hb : r2.body.readAll = r.body.readAll) :
    (s.getPOSTParams r2).1 = (s.getPOSTParams r).1 := by
  simp only [SignatureBuilder.getPOSTParams, hct, hb]
  cases ParseMediaType (if mapGet r.header "Content-Type" = "" then defaultContentType
      else mapGet r.header "Content-Type") with
  | error e => rfl
  | ok ct =>
    by_cases hj : strContains ct "application/json" = true
    · simp [hj]
    · simp only [Bool.not_eq_true] at hj
      by_cases hf : strContains ct defaultContentType = true
      · simp only [hj, Bool.false_eq_true, if_false, hf, if_true]
        cases ParseQuery (r.body.readAll) with
        | error e => rfl
        | ok values => rfl
      · simp only [Bool.not_eq_true] at hf
        simp [hj, hf]

theorem getPOSTParams_error_kind {s : SignatureBuilder} {r : Request} {e : SignError}
    {r1 : Request} (h : s.getPOSTParams r = (.error e, r1)) :
    e ≠ .timestampExpired ∧ e ≠ .signatureValidationFailed := by
  simp only [SignatureBuilder.getPOSTParams] at h
  cases hpm : ParseMediaType (if mapGet r.header "Content-Type" = "" then defaultContentType
      else mapGet r.header "Content-Type") with
  | error e2 =>
    rw [hpm] at h
    simp only [Prod.mk.injEq, Except.error.injEq] at h
    rw [← h.1]
    exact ⟨nofun, nofun⟩
  | ok ct =>
    rw [hpm] at h
    by_cases hj : strContains ct "application/json" = true
    · simp [hj] at h
    · simp only [Bool.not_eq_true] at hj
      simp only [hj, Bool.false_eq_true, if_false] at h
      by_cases hf : strContains ct defaultContentType = true
      · simp only [hf, if_true] at h
        cases hpq : ParseQuery (r.body.readAll) with
        | error e3 =>
          rw [hpq] at h
          simp only [Prod.mk.injEq, Except.error.injEq] at h
          rw [← h.1]
          exact ⟨nofun, nofun⟩
        | ok values => rw [hpq] at h; simp at h
      · simp only [Bool.not_eq_true] at hf
        simp only [hf, Bool.false_eq_true, if_false, Prod.mk.injEq, Except.error.injEq] at h
        rw [← h.1]
        exact ⟨nofun, nofun⟩

theorem build_ok_inv {s : SignatureBuilder} {r : Request} {now : Int}
    {rs : SignatureResult} {r1 : Request}
    (h : s.buildSignatureFromIncomeRequest r now = (.ok rs, r1)) :
    ∃ body postParams,
      s.getPOSTParams r = (.ok (body, postParams), r1) ∧
      rs.Timestamp = (if mapGet r1.header HeadKeyTimestamp = "" then intDecimal now
        else mapGet r1.header HeadKeyTimestamp) ∧
      rs.FinalText = r1.path ++
        s.buildParamsSignatureText (mergeParams (s.getGETParams r) postParams) body ++
        rs.Timestamp ++ s.secretKey ∧
      rs.Sign = s.hash rs.FinalText ∧
      rs.AccessKey = "" := by
  simp only [SignatureBuilder.buildSignatureFromIncomeRequest] at h
  cases hp : s.getPOSTParams r with
  | mk res r2 =>
    rw [hp] at h
    cases res with
    | error e => simp at h
    | ok bp =>
      obtain ⟨body, postParams⟩ := bp
      simp only [Prod.mk.injEq, Except.ok.injEq] at h
      obtain ⟨hrs, hr⟩ := h
      subst hr
      subst hrs
      exact ⟨body, postParams, rfl, rfl, rfl, rfl, rfl⟩

theorem build_error_kind {s : SignatureBuilder} {r : Request} {now : Int}
    {e : SignError} {r1 : Request}
    (h : s.buildSignatureFromIncomeRequest r now = (.error e, r1)) :
    e ≠ .timestampExpired ∧ e ≠ .signatureValidationFailed := by
  simp only [SignatureBuilder.buildSignatureFromIncomeRequest] at h
  cases hp : s.getPOSTParams r with
  | mk res r2 =>
    rw [hp] at h
    cases res with
    | error e2 =>
      simp only [Prod.mk.injEq, Except.error.injEq] at h
      rw [← h.1]
      exact getPOSTParams_error_kind hp
    | ok bp => obtain ⟨body, postParams⟩ := bp; simp at h

theorem SignRequest_ok_inv {s : SignatureBuilder} {r : Request} {now : Int}
    {rs : SignatureResult} {r2 : Request}
    (h : s.SignRequest r now = (.ok rs, r2)) :
    ∃ r1, s.buildSignatureFromIncomeRequest r now = (.ok rs, r1) ∧
      r2 = { r1 with header := mapSet (mapSet (mapSet r1.header HeadKeyTimestamp rs.Timestamp)
        HeadKeyAccessKey s.accessKey) HeadKeySign rs.Sign } := by
  simp only [SignatureBuilder.SignRequest] at h
  cases hb : s.buildSignatureFromIncomeRequest r now with
  | mk res r1 =>
    rw [hb] at h
    cases res with
    | error e => simp at h
    | ok rs0 =>
      simp only [Prod.mk.injEq, Except.ok.injEq] at h
      obtain ⟨hrs, hr⟩ := h
      subst hrs
      exact ⟨r1, rfl, hr.symm⟩

theorem append_ne_empty_of_left {a b : String} (h : a ≠ "") : a ++ b ≠ "" := by
  intro he
  apply h
  apply length_zero_eq_empty
  have := congrArg String.length he
  rw [String.length_append] at this
  have hz : a.length + b.length = 0 := this
  omega

theorem lookup_eq_none_of_not_mem_keys {l : List (String × String)} {k : String}
    (h : k ∉ l.map Prod.fst) : l.lookup k = none := by
  induction l with
  | nil => rfl
  | cons kv rest ih =>
    obtain ⟨k1, v1⟩ := kv
    simp only [List.map_cons, List.mem_cons] at h
    push_neg at h
    rw [lookup_cons_ne h.1]
    exact ih h.2

theorem ParseInt_ok_ne_empty {str : String} {t : Int} (h : ParseInt str = .ok t) :
    str ≠ "" := by
  intro he
  rw [he] at h
  exact Except.noConfusion h

theorem build_snd (s : SignatureBuilder) (r : Request) (now : Int) :
    (s.buildSignatureFromIncomeRequest r now).2 = (s.getPOSTParams r).2 := by
  simp only [SignatureBuilder.buildSignatureFromIncomeRequest]
  cases hp : s.getPOSTParams r with
  | mk res r1 =>
    cases res with
    | error e => rfl
    | ok bp => obtain ⟨b, pp⟩ := bp; rfl

theorem build_readAll (s : SignatureBuilder) (r : Request) (now : Int) :
    (s.buildSignatureFromIncomeRequest r now).2.body.readAll = r.body.readAll := by
  rw [build_snd]
  exact getPOSTParams_readAll s r

theorem SignRequest_snd_body (s : SignatureBuilder) (r : Request) (now : Int) :
    (s.SignRequest r now).2.body = (s.buildSignatureFromIncomeRequest r now).2.body := by
  simp only [SignatureBuilder.SignRequest]
  cases hb : s.buildSignatureFromIncomeRequest r now with
  | mk res r1 =>
    cases res with
    | error e => rfl
    | ok rs => rfl

theorem ValidateRequest_snd (s : SignatureBuilder) (r : Request) (now : Int) :
    (s.ValidateRequest r now).2 = r ∨
      (s.ValidateRequest r now).2 = (s.buildSignatureFromIncomeRequest r now).2 := by
  simp only [SignatureBuilder.ValidateRequest]
  cases ParseInt (mapGet r.header HeadKeyTimestamp) with
  | error e => left; rfl
  | ok t =>
    by_cases hexp : s.expiredIn > 0 ∧ wrapInt64 (now - t) > s.expiredIn
    · left; simp [hexp]
    · simp only [hexp, if_false]
      cases hb : s.buildSignatureFromIncomeRequest r now with
      | mk res r1 =>
        cases res with
        | error e => right; rfl
        | ok rs =>
          right
          by_cases hsig : rs.Sign ≠ mapGet r1.header HeadKeySign
          · simp [hsig]
          · simp [hsig]

theorem ValidateResponse_snd (s : SignatureBuilder) (res : Response) :
    (s.ValidateResponse res).2 = { res with body := Body.fresh res.body.readAll } := by
  simp only [SignatureBuilder.ValidateResponse]
  repeat' split
  all_goals rfl

/-- C9: after signing a request, or validating a request or a response, the
message's body is still fully readable and yields exactly the byte sequence
it held before the operation — the buffered read is restored. -/
theorem C9_nondestructive_read (s : SignatureBuilder) (r : Request)
    (res : Response) (now : Int) :
    (s.SignRequest r now).2.body.readAll = r.body.readAll
    ∧ (s.ValidateRequest r now).2.body.readAll = r.body.readAll
    ∧ (s.ValidateResponse res).2.body.readAll = res.body.readAll := by
  refine ⟨?_, ?_, ?_⟩
  · rw [SignRequest_snd_body]
    exact build_readAll s r now
  · rcases ValidateRequest_snd s r now with h | h
    · rw [h]
    · rw [h]
      exact build_readAll s r now
  · rw [ValidateResponse_snd]
    rfl

/-- C7: when a request carries both query-string parameters and a parsed
form body, the two maps are merged with the form value replacing the query
value on every key collision: a lookup in the merged map yields the form
value whenever the key has one, and the query value otherwise. -/
theorem C7_merge_precedence (qp pp : List (String × String))
    (hnd : (pp.map Prod.fst).Nodup) (k : String) :
    (mergeParams qp pp).lookup k =
      if (pp.lookup k).isSome then pp.lookup k else qp.lookup k := by
  induction pp generalizing qp with
  | nil => simp [mergeParams, List.lookup]
  | cons kv rest ih =>
    obtain ⟨k0, v0⟩ := kv
    simp only [List.map_cons, List.nodup_cons] at hnd
    have hstep : mergeParams qp ((k0, v0) :: rest) = mergeParams (mapSet qp k0 v0) rest := rfl
    rw [hstep, ih (mapSet qp k0 v0) hnd.2]
    by_cases he : k = k0
    · subst he
      have hr : rest.lookup k = none :=
        lookup_eq_none_of_not_mem_keys hnd.1
      simp [hr, lookup_mapSet_self, lookup_cons_self]
    · rw [lookup_cons_ne he, lookup_mapSet_ne qp k0 v0 k he]

/-- Witness for C7 at a concrete collision: the form map wins on `a`, the
query map supplies `b`. -/
theorem C7_merge_precedence_witness :
    (([(("a" : String), ("9" : String)), ("c", "3")].map Prod.fst).Nodup
    ∧ (mergeParams [("a", "1"), ("b", "2")] [("a", "9"), ("c", "3")]).lookup "a" =
        (if ([(("a" : String), ("9" : String)), ("c", "3")].lookup "a").isSome
          then [(("a" : String), ("9" : String)), ("c", "3")].lookup "a"
          else [(("a" : String), ("1" : String)), ("b", "2")].lookup "a"))
    ∧ (mergeParams [("a", "1"), ("b", "2")] [("a", "9"), ("c", "3")]).lookup "a" = some "9" :=
  ⟨⟨by decide, C7_merge_precedence [("a", "1"), ("b", "2")] [("a", "9"), ("c", "3")]
      (by decide) "a"⟩, by decide⟩

/-- C3 (amended): a missing timestamp header fails with the same
timestamp-parse error as a non-numeric one (the empty string does not
parse); when the header parses to `t`, validation fails with the expiry
error exactly when the window is positive and the age `now - t`, computed
in wrapping 64-bit arithmetic as the source does, exceeds it; at a window
of 3600 the age 3600 passes and 3601 fails; a future timestamp is accepted
whenever the difference stays in 64-bit range (for a genuine Unix clock it
always does); a non-positive window disables the expiry check. -/
theorem C3_expiry (s : SignatureBuilder) (r : Request) (now t : Int) :
    (mapGet r.header HeadKeyTimestamp = "" →
      (s.ValidateRequest r now).1 = .error (.timestampParse "invalid syntax"))
    ∧ (ParseInt (mapGet r.header HeadKeyTimestamp) = .ok t →
        (((s.ValidateRequest r now).1 = .error .timestampExpired) ↔
          (s.expiredIn > 0 ∧ wrapInt64 (now - t) > s.expiredIn)))
    ∧ (ParseInt (mapGet r.header HeadKeyTimestamp) = .ok t → s.expiredIn = 3600 →
        (t = now - 3600 → (s.ValidateRequest r now).1 ≠ .error .timestampExpired)
        ∧ (t = now - 3601 → (s.ValidateRequest r now).1 = .error .timestampExpired))
    ∧ (ParseInt (mapGet r.header HeadKeyTimestamp) = .ok t → now ≤ t →
        -9223372036854775808 ≤ now - t →
        (s.ValidateRequest r now).1 ≠ .error .timestampExpired)
    ∧ (ParseInt (mapGet r.header HeadKeyTimestamp) = .ok t → s.expiredIn ≤ 0 →
        (s.ValidateRequest r now).1 ≠ .error .timestampExpired) := by
  have main : ParseInt (mapGet r.header HeadKeyTimestamp) = .ok t →
      (((s.ValidateRequest r now).1 = .error .timestampExpired) ↔
        (s.expiredIn > 0 ∧ wrapInt64 (now - t) > s.expiredIn)) := by
    intro hp
    simp only [SignatureBuilder.ValidateRequest, hp]
    by_cases hexp : s.expiredIn > 0 ∧ wrapInt64 (now - t) > s.expiredIn
    · simp [hexp]
    · rw [if_neg hexp]
      constructor
      · intro hres
        exfalso
        cases hb : s.buildSignatureFromIncomeRequest r now with
        | mk bres r1 =>
          rw [hb] at hres
          cases bres with
          | error e =>
            exact (build_error_kind hb).1 (by simpa using hres)
          | ok rs =>
            by_cases hsig : rs.Sign ≠ mapGet r1.header HeadKeySign
            · simp [hsig] at hres
            · simp [hsig] at hres
      · intro hc; exact absurd hc hexp
  refine ⟨?_, main, ?_, ?_, ?_⟩
  · intro h0
    simp only [SignatureBuilder.ValidateRequest, h0]
    rfl
  · intro hp hw
    constructor
    · intro hb hc
      have hcc := (main hp).mp hc
      subst hb
      simp only [wrapInt64] at hcc
      omega
    · intro hb
      apply (main hp).mpr
      subst hb
      refine ⟨by omega, ?_⟩
      simp only [wrapInt64]
      omega
  · intro hp hfut hrange hc
    have hcc := (main hp).mp hc
    simp only [wrapInt64] at hcc
    omega
  · intro hp hw hc
    have hcc := (main hp).mp hc
    omega

/-- Witness for C3 at the spec's own boundary: with a window of 3600 and a
request timestamped 1000, validation at `now = 4600` does not report expiry
while validation at `now = 4601` does. -/
theorem C3_expiry_witness :
    (w3sb.ValidateRequest w3req 4600).1 ≠ .error .timestampExpired
    ∧ (w3sb.ValidateRequest w3req 4601).1 = .error .timestampExpired := by
  constructor
  · exact ((C3_expiry w3sb w3req 4600 1000).2.2.1 rfl rfl).1 (by decide)
  · exact ((C3_expiry w3sb w3req 4601 1000).2.2.1 rfl rfl).2 (by decide)

set_option maxRecDepth 400000 in
/-- C3 counterexample: the source has no distinct missing-timestamp error —
a request with no timestamp header fails with the very same timestamp-parse
error value as one with the non-numeric header "abc"; and the claim's
expiry condition is also false of the program: at the parseable timestamp
-9223372036854775808 with `now = 1000` and a window of 3600, the claim's
`now - t > 3600` holds, yet the source's wrapping 64-bit subtraction turns
the age negative, the expiry check passes, and validation proceeds to the
signature comparison instead of reporting expiry. -/
theorem C3_counterexample :
    (cex3sb.ValidateRequest cex3reqNone 1000).1 = .error (.timestampParse "invalid syntax")
    ∧ (cex3sb.ValidateRequest cex3reqBad 1000).1 =
        (cex3sb.ValidateRequest cex3reqNone 1000).1
    ∧ (cex3sb.ValidateRequest cex3reqMin 1000).1 = .error .signatureValidationFailed := by
  refine ⟨rfl, rfl, rfl⟩

/-- C4 (amended): on every successful SignRequest the returned result has a
non-empty signature, timestamp and final text, but its AccessKey field is
the empty string — the Go struct literal in
`buildSignatureFromIncomeRequest` never assigns it; the credential's
access-key identifier is written into the request's header instead. -/
theorem C4_result_fields (s : SignatureBuilder) (r : Request) (now : Int)
    (rs : SignatureResult) (r2 : Request)
    (h : s.SignRequest r now = (.ok rs, r2)) :
    rs.Sign ≠ "" ∧ rs.Timestamp ≠ "" ∧ rs.FinalText ≠ "" ∧ rs.AccessKey = ""
    ∧ mapGet r2.header HeadKeyAccessKey = s.accessKey := by
  obtain ⟨r1, hb, hr2⟩ := SignRequest_ok_inv h
  obtain ⟨body, pp, hp, hts, hft, hsg, hak⟩ := build_ok_inv hb
  have hts2 : rs.Timestamp ≠ "" := by
    rw [hts]
    by_cases h0 : mapGet r1.header HeadKeyTimestamp = ""
    · rw [if_pos h0]; exact intDecimal_ne_empty now
    · rw [if_neg h0]; exact h0
  refine ⟨?_, hts2, ?_, hak, ?_⟩
  · rw [hsg]; exact hash_ne_empty s rs.FinalText
  · rw [hft]
    apply append_ne_empty_of_left
    apply append_ne_empty_of_right
    exact hts2
  · subst hr2
    show mapGet (mapSet (mapSet (mapSet r1.header HeadKeyTimestamp rs.Timestamp)
      HeadKeyAccessKey s.accessKey) HeadKeySign rs.Sign) HeadKeyAccessKey = s.accessKey
    rw [mapGet_mapSet_ne _ _ _ _ (by decide), mapGet_mapSet_self]

set_option maxRecDepth 200000 in
/-- Witness for C4 at the fixture request. -/
theorem C4_result_fields_witness :
    w4rs.Sign ≠ "" ∧ w4rs.Timestamp ≠ "" ∧ w4rs.FinalText ≠ "" ∧ w4rs.AccessKey = ""
    ∧ mapGet w4req2.header HeadKeyAccessKey = w4sb.accessKey :=
  C4_result_fields w4sb w4req 1000 w4rs w4req2 rfl

set_option maxRecDepth 200000 in
/-- C4 counterexample: the SignatureResult of a successful SignRequest has
an empty AccessKey field even though the credential's identifier is "ak" —
the fourth field is not populated. -/
theorem C4_counterexample :
    ((cex4sb.SignRequest cex4req 1000).1.map SignatureResult.AccessKey) = .ok ""
    ∧ cex4sb.accessKey = "ak" :=
  ⟨rfl, rfl⟩

/-- C5 (amended): ValidateResponse requires the timestamp and signature
headers to be non-empty, failing in that order with a distinct error naming
whichever is missing; the access-key header has NO dedicated presence check
— it is read with the empty-string default and compared against the
credential's identifier, so an absent header fails with the access-key
mismatch error exactly when the identifier is non-empty, and passes when it
is empty; after these checks only the signature comparison remains. -/
theorem C5_response_checks (s : SignatureBuilder) (res : Response) :
    (mapGet res.header HeadKeyTimestamp = "" →
      (s.ValidateResponse res).1 = .error .missingTimestampInResponse)
    ∧ (mapGet res.header HeadKeyTimestamp ≠ "" → mapGet res.header HeadKeySign = "" →
      (s.ValidateResponse res).1 = .error .missingSignatureInResponse)
    ∧ (mapGet res.header HeadKeyTimestamp ≠ "" → mapGet res.header HeadKeySign ≠ "" →
      mapGet res.header HeadKeyAccessKey ≠ s.accessKey →
      (s.ValidateResponse res).1 = .error .accessKeyValidationFailed)
    ∧ (mapGet res.header HeadKeyTimestamp ≠ "" → mapGet res.header HeadKeySign ≠ "" →
      mapGet res.header HeadKeyAccessKey = s.accessKey →
      ((s.ValidateResponse res).1 = .ok () ∨
        (s.ValidateResponse res).1 = .error .signatureValidationFailed)) := by
  refine ⟨?_, ?_, ?_, ?_⟩
  · intro h1
    simp only [SignatureBuilder.ValidateResponse]
    rw [if_pos h1]
  · intro h1 h2
    simp only [SignatureBuilder.ValidateResponse]
    rw [if_neg h1, if_pos h2]
  · intro h1 h2 h3
    simp only [SignatureBuilder.ValidateResponse]
    rw [if_neg h1, if_neg h2, if_pos h3]
  · intro h1 h2 h3
    simp only [SignatureBuilder.ValidateResponse]
    have h4 : ¬ (mapGet res.header HeadKeyAccessKey ≠ s.accessKey) := fun hc => hc h3
    rw [if_neg h1, if_neg h2, if_neg h4, if_neg h4]
    by_cases h5 : s.hash (res.requestPath ++ s.buildParamsSignatureText [] res.body.readAll ++
        mapGet res.header HeadKeyTimestamp ++ s.secretKey) = mapGet res.header HeadKeySign
    · left; rw [if_pos h5]
    · right; rw [if_neg h5]

/-- Witness for C5: a response carrying a timestamp but no signature header
fails with the missing-signature error. -/
theorem C5_response_checks_witness :
    (w5sb.ValidateResponse w5res).1 = .error .missingSignatureInResponse :=
  (C5_response_checks w5sb w5res).2.1 (by decide) rfl

set_option maxRecDepth 200000 in
/-- C5 counterexample: with an empty credential identifier, a response with
NO access-key header at all passes validation completely — the source never
checks this header's presence, so validation does not fail with an error
naming the missing header. -/
theorem C5_counterexample :
    (cex5sb.ValidateResponse cex5res).1 = .ok ()
    ∧ cex5res.header.lookup HeadKeyAccessKey = none := by
  constructor
  · rfl
  · rfl

/-- C8: SignRequest signs with the request's existing timestamp header
value when one is present, else with the decimal rendering of the current
Unix time; and on success its only header mutations are the three signature
fields — every other header key keeps its previous value. -/
theorem C8_header_frame (s : SignatureBuilder) (r : Request) (now : Int)
    (rs : SignatureResult) (r2 : Request)
    (h : s.SignRequest r now = (.ok rs, r2)) :
    (∀ k, k ≠ HeadKeyTimestamp → k ≠ HeadKeyAccessKey → k ≠ HeadKeySign →
      mapGet r2.header k = mapGet r.header k)
    ∧ mapGet r2.header HeadKeyTimestamp = rs.Timestamp
    ∧ mapGet r2.header HeadKeyAccessKey = s.accessKey
    ∧ mapGet r2.header HeadKeySign = rs.Sign
    ∧ rs.Timestamp = (if mapGet r.header HeadKeyTimestamp = "" then intDecimal now
        else mapGet r.header HeadKeyTimestamp) := by
  obtain ⟨r1, hb, hr2⟩ := SignRequest_ok_inv h
  obtain ⟨body, pp, hp, hts, hft, hsg, hak⟩ := build_ok_inv hb
  have hh : r1.header = r.header := by
    have h2 := getPOSTParams_header s r
    rw [hp] at h2
    exact h2
  subst hr2
  refine ⟨?_, ?_, ?_, ?_, ?_⟩
  · intro k h1 h2 h3
    show mapGet (mapSet (mapSet (mapSet r1.header HeadKeyTimestamp rs.Timestamp)
      HeadKeyAccessKey s.accessKey) HeadKeySign rs.Sign) k = mapGet r.header k
    rw [mapGet_mapSet_ne _ _ _ _ h3, mapGet_mapSet_ne _ _ _ _ h2,
      mapGet_mapSet_ne _ _ _ _ h1, hh]
  · show mapGet (mapSet (mapSet (mapSet r1.header HeadKeyTimestamp rs.Timestamp)
      HeadKeyAccessKey s.accessKey) HeadKeySign rs.Sign) HeadKeyTimestamp = rs.Timestamp
    rw [mapGet_mapSet_ne _ _ _ _ (by decide), mapGet_mapSet_ne _ _ _ _ (by decide),
      mapGet_mapSet_self]
  · show mapGet (mapSet (mapSet (mapSet r1.header HeadKeyTimestamp rs.Timestamp)
      HeadKeyAccessKey s.accessKey) HeadKeySign rs.Sign) HeadKeyAccessKey = s.accessKey
    rw [mapGet_mapSet_ne _ _ _ _ (by decide), mapGet_mapSet_self]
  · show mapGet (mapSet (mapSet (mapSet r1.header HeadKeyTimestamp rs.Timestamp)
      HeadKeyAccessKey s.accessKey) HeadKeySign rs.Sign) HeadKeySign = rs.Sign
    rw [mapGet_mapSet_self]
  · rw [hts, hh]

set_option maxRecDepth 200000 in
/-- Witness for C8: signing the fixture keeps the unrelated header "X-Other"
untouched and signs with the pre-set timestamp header "77" rather than the
current time 2000. -/
theorem C8_header_frame_witness :
    mapGet w8req2.header "X-Other" = "keep"
    ∧ mapGet w8req2.header HeadKeyTimestamp = w8rs.Timestamp
    ∧ w8rs.Timestamp = "77" := by
  have h := C8_header_frame w8sb w8req 2000 w8rs w8req2 rfl
  refine ⟨?_, h.2.1, ?_⟩
  · rw [h.1 "X-Other" (by decide) (by decide) (by decide)]
    rfl
  · rw [h.2.2.2.2]
    rfl

/-- C10: ValidateResponse never parses the timestamp header as a number and
performs no freshness check — for every non-empty timestamp string,
including non-numeric strings and arbitrarily old times, validation
succeeds whenever the access-key header matches the credential and the
signature header equals the recomputed digest, for every expiry window. -/
theorem C10_no_response_expiry (s : SignatureBuilder) (res : Response)
    (hts : ¬ mapGet res.header HeadKeyTimestamp = "")
    (hak : mapGet res.header HeadKeyAccessKey = s.accessKey)
    (hsig : mapGet res.header HeadKeySign =
      s.hash (res.requestPath ++ s.buildParamsSignatureText [] res.body.readAll ++
        mapGet res.header HeadKeyTimestamp ++ s.secretKey)) :
    (s.ValidateResponse res).1 = .ok () := by
  simp only [SignatureBuilder.ValidateResponse]
  have hsg2 : ¬ (mapGet res.header HeadKeySign = "") := by
    rw [hsig]; exact hash_ne_empty s _
  have h4 : ¬ (mapGet res.header HeadKeyAccessKey ≠ s.accessKey) := fun hc => hc hak
  rw [if_neg hts, if_neg hsg2, if_neg h4, if_neg h4, if_pos hsig.symm]

/-- Witness for C10: a response stamped "not-a-number" with matching access
key and signature validates successfully under a 3600-second window. -/
theorem C10_no_response_expiry_witness :
    (w10sb.ValidateResponse w10res).1 = .ok () :=
  C10_no_response_expiry w10sb w10res (by decide) rfl rfl

theorem foldl_paramText_congr (keys : List String) (f g : String → String) (init : String)
    (h : ∀ k ∈ keys, f k = g k) :
    keys.foldl (fun acc k => acc ++ k ++ "=" ++ f k) init =
      keys.foldl (fun acc k => acc ++ k ++ "=" ++ g k) init := by
  induction keys generalizing init with
  | nil => rfl
  | cons x xs ih =>
    simp only [List.foldl]
    rw [h x (List.mem_cons_self x xs), ih _ (fun k hk => h k (List.mem_cons_of_mem x hk))]

theorem foldl_paramText_assoc (keys : List String) (f : String → String) (init : String) :
    keys.foldl (fun acc k => acc ++ k ++ "=" ++ f k) init =
      keys.foldl (fun acc k => acc ++ (k ++ "=" ++ f k)) init := by
  induction keys generalizing init with
  | nil => rfl
  | cons x xs ih =>
    simp only [List.foldl]
    rw [ih]
    congr 1
    simp [String.append_assoc]

theorem buildParamsSignatureText_perm (s : SignatureBuilder)
    {p q : List (String × String)} (body : String) (hpq : p.Perm q)
    (hnd : (p.map Prod.fst).Nodup) :
    s.buildParamsSignatureText p body = s.buildParamsSignatureText q body := by
  simp only [SignatureBuilder.buildParamsSignatureText]
  rw [← sortStrings_congr (hpq.map Prod.fst)]
  congr 1
  apply foldl_paramText_congr
  intro k _
  simp only [mapGet]
  rw [lookup_perm hpq hnd k]

theorem buildParamsSignatureText_eq_spec (s : SignatureBuilder)
    (p : List (String × String)) (body : String)
    (hnd : (p.map Prod.fst).Nodup) :
    s.buildParamsSignatureText p body = canonicalizeSpec p body := by
  simp only [SignatureBuilder.buildParamsSignatureText, canonicalizeSpec]
  congr 1
  have hpairs : (p.insertionSort pairKeyLe).map Prod.fst = sortStrings (p.map Prod.fst) := by
    apply List.eq_of_perm_of_sorted (r := strLe)
    · exact ((List.perm_insertionSort pairKeyLe p).map Prod.fst).trans
        (sortStrings_perm (p.map Prod.fst)).symm
    · exact List.pairwise_map.mpr (List.sorted_insertionSort pairKeyLe p)
    · exact sortStrings_sorted (p.map Prod.fst)
  rw [← hpairs, foldl_paramText_assoc, foldl_append_join]
  have hjoin : ∀ t : String, "" ++ t = t := fun _ => rfl
  rw [hjoin]
  congr 1
  rw [List.map_map]
  apply List.map_congr_left
  intro kv hkv
  have hmem : kv ∈ p := (List.perm_insertionSort pairKeyLe p).mem_iff.mp hkv
  obtain ⟨k, v⟩ := kv
  have hl : p.lookup k = some v := lookup_of_mem_nodup hnd hmem
  simp only [Function.comp, mapGet, hl, Option.getD]

set_option maxRecDepth 200000 in
/-- C2: canonicalization equals the concatenation of the `key=value` pairs
in strictly ascending lexicographic key order with no delimiter between
pairs, immediately followed by the body (the spec-side rendering
`canonicalizeSpec`); it is therefore invariant under the insertion order of
the map; and on the map with entries data:a, a:b, d:c and an empty body it
yields "a=bd=cdata=a". -/
theorem C2_canonicalize (s : SignatureBuilder) (p q : List (String × String))
    (body : String) (hpq : p.Perm q) (hnd : (p.map Prod.fst).Nodup) :
    s.buildParamsSignatureText p body = s.buildParamsSignatureText q body
    ∧ s.buildParamsSignatureText p body = canonicalizeSpec p body
    ∧ s.buildParamsSignatureText [("data", "a"), ("a", "b"), ("d", "c")] "" =
        "a=bd=cdata=a" :=
  ⟨buildParamsSignatureText_perm s body hpq hnd,
   buildParamsSignatureText_eq_spec s p body hnd,
   rfl⟩

/-- Witness for C2: the two insertion orders of the spec's order-invariance
example produce the same canonical text. -/
theorem C2_canonicalize_witness :
    ([(("a" : String), ("1" : String)), ("b", "2")].Perm [("b", "2"), ("a", "1")]
    ∧ ([(("a" : String), ("1" : String)), ("b", "2")].map Prod.fst).Nodup)
    ∧ (NewSignatureBuilder "ak" "sk" 0).buildParamsSignatureText
        [("a", "1"), ("b", "2")] "" =
      (NewSignatureBuilder "ak" "sk" 0).buildParamsSignatureText
        [("b", "2"), ("a", "1")] "" :=
  ⟨⟨List.Perm.swap ("b", "2") ("a", "1") [], by decide⟩,
   (C2_canonicalize (NewSignatureBuilder "ak" "sk" 0) [("a", "1"), ("b", "2")]
     [("b", "2"), ("a", "1")] ""
     (List.Perm.swap ("b", "2") ("a", "1") []) (by decide)).1⟩

theorem infixOf_iff (sub l : List Char) : infixOfCh sub l = true ↔ sub <:+: l := by
  induction l with
  | nil =>
    constructor
    · intro h
      have hs : sub = [] := by
        cases sub with
        | nil => rfl
        | cons c cs => simp [infixOfCh, List.isEmpty] at h
      subst hs
      exact List.infix_refl []
    · intro h
      have hs : sub = [] := by
        obtain ⟨a, b, hab⟩ := h
        have := List.append_eq_nil.mp hab
        exact (List.append_eq_nil.mp this.1).2
      subst hs
      rfl
  | cons c cs ih =>
    simp only [infixOfCh, Bool.or_eq_true, ih]
    constructor
    · rintro (hp | hi)
      · exact (List.isPrefixOf_iff_prefix.mp hp).isInfix
      · exact List.infix_cons hi
    · intro hi
      rcases List.infix_cons_iff.mp hi with hp | hi2
      · exact Or.inl (List.isPrefixOf_iff_prefix.mpr hp)
      · exact Or.inr hi2

theorem not_slash_mem_takeWhile {l : List Char}
    (hm : '/' ∈ l.takeWhile isTokenChar) : False := by
  have h := List.mem_takeWhile_imp hm
  exact absurd h (by decide)

theorem check_slash_shape {ctS : String} (h : checkMediaTypeDisposition ctS = .ok ()) :
    ('/' ∉ ctS.data) ∨
      ∃ typ subt, ctS.data = typ ++ '/' :: subt ∧ '/' ∉ typ ∧ '/' ∉ subt := by
  have hsplit := List.takeWhile_append_dropWhile isTokenChar ctS.data
  simp only [checkMediaTypeDisposition, consumeToken] at h
  by_cases h1 : ctS.data.takeWhile isTokenChar = []
  · rw [if_pos h1] at h; exact Except.noConfusion h
  · rw [if_neg h1] at h
    by_cases h2 : ctS.data.dropWhile isTokenChar = []
    · left
      intro hm
      rw [← hsplit, h2, List.append_nil] at hm
      exact not_slash_mem_takeWhile hm
    · rw [if_neg h2] at h
      by_cases h3 : (ctS.data.dropWhile isTokenChar).head? = some '/'
      · rw [if_pos h3] at h
        by_cases h4 : (ctS.data.dropWhile isTokenChar).tail.takeWhile isTokenChar = []
        · rw [if_pos h4] at h; exact Except.noConfusion h
        · rw [if_neg h4] at h
          by_cases h5 : (ctS.data.dropWhile isTokenChar).tail.dropWhile isTokenChar = []
          · right
            have hcons : ctS.data.dropWhile isTokenChar =
                '/' :: (ctS.data.dropWhile isTokenChar).tail := by
              cases hd : ctS.data.dropWhile isTokenChar with
              | nil => exact absurd hd h2
              | cons d0 rest2 =>
                rw [hd] at h3
                simp only [List.head?_cons, Option.some.injEq] at h3
                subst h3
                rfl
            refine ⟨ctS.data.takeWhile isTokenChar,
              (ctS.data.dropWhile isTokenChar).tail, ?_, ?_, ?_⟩
            · conv_lhs => rw [← hsplit, hcons]
            · intro hm
              exact not_slash_mem_takeWhile hm
            · intro hm
              have htl := List.takeWhile_append_dropWhile isTokenChar
                (ctS.data.dropWhile isTokenChar).tail
              rw [h5, List.append_nil] at htl
              rw [← htl] at hm
              exact not_slash_mem_takeWhile hm
          · rw [if_neg h5] at h; exact Except.noConfusion h
      · rw [if_neg h3] at h; exact Except.noConfusion h

theorem parseMediaType_ok_check {v ct : String} (h : ParseMediaType v = .ok ct) :
    checkMediaTypeDisposition ct = .ok () := by
  simp only [ParseMediaType] at h
  cases hc : checkMediaTypeDisposition
      (String.mk (trimCh ((v.data.takeWhile (fun c => !(c == ';'))).map toLowerCh))) with
  | error e => rw [hc] at h; exact Except.noConfusion h
  | ok u =>
    rw [hc] at h
    cases u
    simp only [Except.ok.injEq] at h
    rw [← h]
    exact hc

theorem split_at_unique_char {c : Char} :
    ∀ (a : List Char) {b a2 b2 : List Char},
      a ++ c :: b = a2 ++ c :: b2 → c ∉ a → c ∉ a2 → a = a2 ∧ b = b2 := by
  intro a
  induction a with
  | nil =>
    intro b a2 b2 h hc hc2
    cases a2 with
    | nil =>
      simp only [List.nil_append, List.cons.injEq] at h
      exact ⟨rfl, h.2⟩
    | cons x xs =>
      simp only [List.nil_append, List.cons_append, List.cons.injEq] at h
      exfalso
      apply hc2
      rw [h.1]
      exact List.mem_cons_self x xs
  | cons y ys ih =>
    intro b a2 b2 h hc hc2
    cases a2 with
    | nil =>
      simp only [List.cons_append, List.nil_append, List.cons.injEq] at h
      exfalso
      apply hc
      rw [← h.1]
      exact List.mem_cons_self y ys
    | cons x xs =>
      simp only [List.cons_append, List.cons.injEq] at h
      obtain ⟨hyx, hrest⟩ := h
      subst hyx
      have hc3 : c ∉ ys := fun hm => hc (List.mem_cons_of_mem _ hm)
      have hc4 : c ∉ xs := fun hm => hc2 (List.mem_cons_of_mem _ hm)
      obtain ⟨ha, hb⟩ := ih hrest hc3 hc4
      exact ⟨by rw [ha], hb⟩

theorem json_form_exclusive {v ct : String} (h : ParseMediaType v = .ok ct) :
    ¬(strContains ct "application/json" = true ∧
      strContains ct defaultContentType = true) := by
  rintro ⟨hj, hf⟩
  rw [strContains, infixOf_iff] at hj hf
  obtain ⟨p1, s1, hj⟩ := hj
  obtain ⟨p2, s2, hf⟩ := hf
  have hjd : ("application/json" : String).data =
      "application".data ++ '/' :: "json".data := rfl
  have hfd : (defaultContentType : String).data =
      "application".data ++ '/' :: "x-www-form-urlencoded".data := rfl
  rw [hjd] at hj
  rw [show defaultContentType.data =
    "application".data ++ '/' :: "x-www-form-urlencoded".data from rfl] at hf
  have hj2 : (p1 ++ "application".data) ++ '/' :: ("json".data ++ s1) = ct.data := by
    rw [← hj]
    simp [List.append_assoc]
  have hf2 : (p2 ++ "application".data) ++
      '/' :: ("x-www-form-urlencoded".data ++ s2) = ct.data := by
    rw [← hf]
    simp [List.append_assoc]
  rcases check_slash_shape (parseMediaType_ok_check h) with hno | ⟨typ, subt, hshape, htyp, hsub⟩
  · apply hno
    rw [← hj2]
    exact List.mem_append.mpr (Or.inr (List.mem_cons_self _ _))
  · have hslash_ct : List.count '/' ct.data = 1 := by
      rw [hshape, List.count_append]
      have hz1 : List.count '/' typ = 0 := List.count_eq_zero.mpr htyp
      have hz2 : List.count '/' subt = 0 := List.count_eq_zero.mpr hsub
      rw [hz1]
      simp [List.count_cons, hz2]
    have hcount : ∀ (p : List Char) (tl : List Char),
        (p ++ "application".data) ++ '/' :: tl = ct.data →
        '/' ∉ p ++ "application".data := by
      intro p tl hp hm
      have hcnt := congrArg (List.count '/') hp
      rw [hslash_ct, List.count_append, List.count_cons,
        if_pos (show (('/' : Char) == '/') = true from rfl)] at hcnt
      have hpos : 0 < List.count '/' (p ++ "application".data) :=
        List.count_pos_iff.mpr hm
      omega
    have hp1 := hcount p1 ("json".data ++ s1) hj2
    have hp2 := hcount p2 ("x-www-form-urlencoded".data ++ s2) hf2
    have e1 := split_at_unique_char (p1 ++ "application".data)
      (hj2.trans hshape) hp1 htyp
    have e2 := split_at_unique_char (p2 ++ "application".data)
      (hf2.trans hshape) hp2 htyp
    have heq : "json".data ++ s1 = "x-www-form-urlencoded".data ++ s2 := by
      rw [e1.2, ← e2.2]
    rw [show ("json" : String).data = 'j' :: "son".data from rfl,
      show ("x-www-form-urlencoded" : String).data = 'x' :: "-www-form-urlencoded".data from rfl]
      at heq
    simp only [List.cons_append, List.cons.injEq] at heq
    exact absurd heq.1 (by decide)

/-- C6: parameter/body extraction dispatches on the declared content type:
an absent content-type header defaults to form-urlencoded; a parsed media
type containing application/json makes the raw body the body text with an
empty parameter set; one containing the form-urlencoded type (the last
conjunct shows a valid media type can never contain both) parses the body
into key/value parameters with an empty body text; any other parsed type
fails with the unsupported-content-type error naming it. -/
theorem C6_content_type_dispatch (s : SignatureBuilder) (r : Request) (ct : String)
    (hpm : ParseMediaType (if mapGet r.header "Content-Type" = "" then defaultContentType
      else mapGet r.header "Content-Type") = .ok ct) :
    (mapGet r.header "Content-Type" = "" → ct = defaultContentType)
    ∧ (strContains ct "application/json" = true →
        (s.getPOSTParams r).1 = .ok (r.body.readAll, []))
    ∧ (strContains ct defaultContentType = true →
        strContains ct "application/json" = false →
        (s.getPOSTParams r).1 = (match ParseQuery r.body.readAll with
          | .ok values => .ok ("", firstPerKey values)
          | .error e => .error (.formParse e)))
    ∧ (strContains ct "application/json" = false →
        strContains ct defaultContentType = false →
        (s.getPOSTParams r).1 = .error (.unsupportedContentType ct))
    ∧ ¬(strContains ct "application/json" = true ∧
        strContains ct defaultContentType = true) := by
  refine ⟨?_, ?_, ?_, ?_, json_form_exclusive hpm⟩
  · intro h0
    rw [if_pos h0] at hpm
    rw [show ParseMediaType defaultContentType = .ok defaultContentType from rfl] at hpm
    injection hpm with h2
    exact h2.symm
  · intro hj
    simp only [SignatureBuilder.getPOSTParams]
    rw [hpm]
    simp [hj]
  · intro hf hj
    simp only [SignatureBuilder.getPOSTParams]
    rw [hpm]
    simp only [hj, Bool.false_eq_true, if_false, hf, if_true]
    cases ParseQuery r.body.readAll with
    | error e => rfl
    | ok values => rfl
  · intro hj hf
    simp only [SignatureBuilder.getPOSTParams]
    rw [hpm]
    simp [hj, hf]

set_option maxRecDepth 200000 in
/-- Witness for C6: a JSON-typed body is extracted as raw body text with an
empty parameter set. -/
theorem C6_content_type_dispatch_witness :
    (w6sb.getPOSTParams w6req).1 = .ok (w6req.body.readAll, []) :=
  (C6_content_type_dispatch w6sb w6req "application/json" rfl).2.1 rfl

/-- C1: signing a request and immediately validating it with the same
credential succeeds — provided the signed timestamp parses as a number
(always true for a freshly generated one) and the elapsed time `now2 - t`
since signing is non-negative and does not exceed a positive expiry
window, ValidateRequest accepts exactly the request that SignRequest
produced. -/
theorem C1_roundtrip (s : SignatureBuilder) (r : Request) (now now2 t : Int)
    (rs : SignatureResult) (r2 : Request)
    (h : s.SignRequest r now = (.ok rs, r2))
    (ht : ParseInt rs.Timestamp = .ok t)
    (hfresh : s.expiredIn > 0 → 0 ≤ now2 - t ∧ now2 - t ≤ s.expiredIn) :
    (s.ValidateRequest r2 now2).1 = .ok () := by
  obtain ⟨r1, hb, hr2⟩ := SignRequest_ok_inv h
  obtain ⟨body, pp, hp, hts, hft, hsg, hak⟩ := build_ok_inv hb
  have hr1 : r1 = { r with body := Body.fresh (r.body.readAll) } := getPOSTParams_ok_snd hp
  have hTs : mapGet r2.header HeadKeyTimestamp = rs.Timestamp := by
    rw [hr2]
    show mapGet (mapSet (mapSet (mapSet r1.header HeadKeyTimestamp rs.Timestamp)
      HeadKeyAccessKey s.accessKey) HeadKeySign rs.Sign) HeadKeyTimestamp = rs.Timestamp
    rw [mapGet_mapSet_ne _ _ _ _ (by decide), mapGet_mapSet_ne _ _ _ _ (by decide),
      mapGet_mapSet_self]
  have hSg : mapGet r2.header HeadKeySign = rs.Sign := by
    rw [hr2]
    show mapGet (mapSet (mapSet (mapSet r1.header HeadKeyTimestamp rs.Timestamp)
      HeadKeyAccessKey s.accessKey) HeadKeySign rs.Sign) HeadKeySign = rs.Sign
    exact mapGet_mapSet_self _ _ _
  have hCT : mapGet r2.header "Content-Type" = mapGet r.header "Content-Type" := by
    rw [hr2]
    show mapGet (mapSet (mapSet (mapSet r1.header HeadKeyTimestamp rs.Timestamp)
      HeadKeyAccessKey s.accessKey) HeadKeySign rs.Sign) "Content-Type" =
      mapGet r.header "Content-Type"
    rw [mapGet_mapSet_ne _ _ _ _ (by decide), mapGet_mapSet_ne _ _ _ _ (by decide),
      mapGet_mapSet_ne _ _ _ _ (by decide), hr1]
  have hbody : r2.body.readAll = r.body.readAll := by
    rw [hr2]
    show r1.body.readAll = r.body.readAll
    rw [hr1]
    rfl
  have hquery : r2.query = r.query := by
    rw [hr2]
    show r1.query = r.query
    rw [hr1]
  have hpath : r2.path = r.path := by
    rw [hr2]
    show r1.path = r.path
    rw [hr1]
  have htsne : rs.Timestamp ≠ "" := ParseInt_ok_ne_empty ht
  have hexp : ¬(s.expiredIn > 0 ∧ wrapInt64 (now2 - t) > s.expiredIn) := by
    rintro ⟨h1, h2⟩
    obtain ⟨hge, hle⟩ := hfresh h1
    simp only [wrapInt64] at h2
    omega
  have hstable : (s.getPOSTParams r2).1 = (s.getPOSTParams r).1 :=
    getPOSTParams_fst_stable s r r2 hCT hbody
  cases hq0 : s.getPOSTParams r2 with
  | mk res2 r21 =>
    have hres2 : res2 = .ok (body, pp) := by
      have h1 := hstable
      rw [hq0] at h1
      exact h1.trans (congrArg Prod.fst hp)
    subst hres2
    have hr21 : r21 = { r2 with body := Body.fresh (r2.body.readAll) } :=
      getPOSTParams_ok_snd hq0
    have hh21 : r21.header = r2.header := by
      rw [hr21]
    have hpath21 : r21.path = r1.path := by
      rw [hr21]
      show r2.path = r1.path
      rw [hpath, hr1]
    have hget : s.getGETParams r2 = s.getGETParams r := by
      simp only [SignatureBuilder.getGETParams, hquery]
    have hTs21 : mapGet r21.header HeadKeyTimestamp = rs.Timestamp := by
      rw [hh21, hTs]
    have hbuild : s.buildSignatureFromIncomeRequest r2 now2 = (.ok rs, r21) := by
      simp only [SignatureBuilder.buildSignatureFromIncomeRequest, hq0]
      rw [hget, hTs21, if_neg htsne, hpath21, ← hft, ← hsg, ← hak]
    have hSg21 : mapGet r21.header HeadKeySign = rs.Sign := by
      rw [hh21, hSg]
    have hcond : ¬(rs.Sign ≠ mapGet r21.header HeadKeySign) := by
      rw [hSg21]
      exact fun hc => hc rfl
    simp only [SignatureBuilder.ValidateRequest, hTs, ht]
    rw [if_neg hexp]
    simp only [hbuild]
    rw [if_neg hcond]

set_option maxRecDepth 400000 in
/-- Witness for C1: the repository's own test fixture — query `data=a`,
form body `a=b&d=c`, credential ("ak", "sk", 3600) — signs at time 1000 and
validates at time 1000. -/
theorem C1_roundtrip_witness : (w1sb.ValidateRequest w1req2 1000).1 = .ok () :=
  C1_roundtrip w1sb w1req 1000 1000 1000 w1rs w1req2 rfl rfl
    (fun _ => ⟨by decide, by decide⟩)

end OpenApiSdk
